import Mathlib

/-!
Verification of the chunk/transcribe/reassemble pipeline of the
groover-podcast-automation repository.

The Python dictionaries produced by `src/transcription.py` are modelled by a
single structure `PyDict` with one `Option` field per key the code ever sets;
`none` models an absent key (the code never maps these keys to Python `None`
except where noted, so the collapse is faithful for every access the code
performs, all of which are `get`-style).  Times and durations (floats in the
source, used only with `+` and comparisons) are modelled exactly as rationals.
-/

namespace Groover

/-- A Whisper segment dict: keys `start`, `end`, `text`
(`src/transcription.py`, consumed in `reassemble_transcription`). -/
structure Segment where
  start : Rat
  end_ : Rat
  text : String
deriving DecidableEq, Repr

/-- Entry of the `chunk_errors` list built in `reassemble_transcription`:
`r.get('chunk_index', 'unknown')` yields either an int or the string
`'unknown'`, so the index slot is a sum of the two shapes. -/
inductive IdxVal where
  | idx (n : Nat)
  | unknownIdx
deriving DecidableEq, Repr

/-- A `{'index': ..., 'error': ...}` dict from `reassemble_transcription`. -/
structure ChunkError where
  index : IdxVal
  error : String
deriving DecidableEq, Repr

/-- One Python result dict as built by `transcribe_audio`,
`transcribe_chunks_sequential`, `reassemble_transcription` or
`transcribe_file`; `none` = key absent. -/
structure PyDict where
  success : Option Bool
  text : Option String
  language : Option String
  duration : Option Rat
  segments : Option (List Segment)
  file_path : Option String
  error : Option String
  chunk_index : Option Nat
  total_chunks : Option Nat
  successful_chunks : Option Nat
  failed_chunks : Option Nat
  total_duration : Option Rat
  chunk_errors : Option (List ChunkError)
deriving DecidableEq, Repr

/-- The empty dict `{}`; every result dict in the source sets only some keys. -/
def emptyDict : PyDict :=
  ⟨none, none, none, none, none, none, none, none, none, none, none, none, none⟩

/-- Behaviour of one call to the remote Whisper API
(`self.client.audio.transcriptions.create`): either it returns a response
object or it raises.  The response's attributes are optional because the code
probes each with `hasattr`; `str_repr` models `str(response)`. -/
structure WhisperResponse where
  resp_text : Option String
  resp_language : Option String
  resp_duration : Option Rat
  resp_segments : Option (List Segment)
  str_repr : String
deriving DecidableEq, Repr

/-- Outcome of one Transcriber call: normal return or a raised exception
(with `str(e)` as the message). -/
inductive TranscriberOutcome where
  | ok (resp : WhisperResponse)
  | raises (msg : String)
deriving DecidableEq, Repr

/-- Python truthiness of the optional `language` argument:
`language or 'unknown'` falls back when the hint is `None` or `''`. -/
def langOrUnknown (language : Option String) : String :=
  match language with
  | some l => if l = "" then "unknown" else l
  | none => "unknown"

/-- `TranscriptionService.transcribe_audio` (src/transcription.py:31-86):
build the success dict from the response, or catch the exception and build
the failure dict.  `beh` is the outcome of the one API call made. -/
def transcribe_audio (beh : TranscriberOutcome) (audio_file_path : String)
    (language : Option String) : PyDict :=
  match beh with
  | .ok resp =>
    { emptyDict with
      success := some true
      text := some (resp.resp_text.getD resp.str_repr)
      language := some (resp.resp_language.getD (langOrUnknown language))
      duration := resp.resp_duration
      segments := some (resp.resp_segments.getD [])
      file_path := some audio_file_path }
  | .raises msg =>
    { emptyDict with
      success := some false
      error := some ("Error: " ++ msg)
      file_path := some audio_file_path }

/-- One loop iteration message "Transcribing chunk i+1/total...". -/
def preMsg (i total : Nat) : String :=
  "Transcribing chunk " ++ toString (i + 1) ++ "/" ++ toString total ++ "..."

/-- One loop iteration message "Transcribed chunk i+1/total". -/
def postMsg (i total : Nat) : String :=
  "Transcribed chunk " ++ toString (i + 1) ++ "/" ++ toString total

/-- The loop body of `transcribe_chunks_sequential`
(src/transcription.py:109-124), processing the chunk paths from position `i`
on.  Returns the accumulated results list and the trace of
`progress_callback(fraction, message)` invocations (empty when no callback
was passed, i.e. `cb = false`).  `beh j` is the Transcriber's outcome on the
`j`-th call. -/
def runChunks (beh : Nat → TranscriberOutcome) (language : Option String)
    (cb : Bool) (total : Nat) : Nat → List String → List PyDict × List (Rat × String)
  | _, [] => ([], [])
  | i, p :: rest =>
    let pre := if cb then [((i : Rat) / (total : Rat), preMsg i total)] else []
    let r := transcribe_audio (beh i) p language
    let r := { r with chunk_index := some i }
    let post := if cb then [(((i + 1 : Nat) : Rat) / (total : Rat), postMsg i total)] else []
    let rec_ := runChunks beh language cb total (i + 1) rest
    (r :: rec_.1, pre ++ post ++ rec_.2)

/-- `TranscriptionService.transcribe_chunks_sequential`
(src/transcription.py:88-126): sequential per-chunk transcription with
0-based `chunk_index` stamping and progress callbacks before and after each
chunk. -/
def transcribe_chunks_sequential (beh : Nat → TranscriberOutcome)
    (chunk_paths : List String) (language : Option String) (cb : Bool) :
    List PyDict × List (Rat × String) :=
  runChunks beh language cb chunk_paths.length 0 chunk_paths

/-- Python truthiness of `r.get('success', False)`. -/
def truthySuccess (r : PyDict) : Bool :=
  r.success.getD false

/-- Python truthiness of `chunk.get('duration')`: absent and `0.0` are falsy. -/
def durTruthy (d : Option Rat) : Bool :=
  match d with
  | some x => x ≠ 0
  | none => false

/-- Python truthiness of `chunk.get('text')`: absent and `''` are falsy. -/
def textTruthy (r : PyDict) : Bool :=
  match r.text with
  | some t => t ≠ ""
  | none => false

/-- The `chunk_errors` entry built for one failed chunk
(src/transcription.py:146). -/
def toChunkError (r : PyDict) : ChunkError :=
  { index := match r.chunk_index with
      | some n => .idx n
      | none => .unknownIdx
    error := r.error.getD "unknown error" }

/-- The segment/offset loop of `reassemble_transcription`
(src/transcription.py:153-168): walk the successful chunks in list order,
skip a chunk entirely when its segment list is empty or absent (`if
segments:`), otherwise emit each segment shifted by the running offset and
then advance the offset by the chunk's duration when that is truthy
(`if chunk.get('duration'):`).  Returns the merged segments and the final
`time_offset`. -/
def segLoop : List PyDict → Rat → List Segment × Rat
  | [], off => ([], off)
  | c :: rest, off =>
    let segs := c.segments.getD []
    if segs.isEmpty then
      segLoop rest off
    else
      let adjusted := segs.map (fun s => { s with start := s.start + off, end_ := s.end_ + off })
      let off' := if durTruthy c.duration then off + c.duration.getD 0 else off
      let r := segLoop rest off'
      (adjusted ++ r.1, r.2)

/-- `TranscriptionService.reassemble_transcription`
(src/transcription.py:128-179): partition by success truthiness; on zero
successes build the failure dict (note: no `text` key); otherwise join the
truthy texts with single spaces, merge segments via `segLoop`, and fill the
aggregate counters. -/
def reassemble_transcription (chunk_results : List PyDict) : PyDict :=
  let successful_chunks := chunk_results.filter truthySuccess
  let failed_chunks := chunk_results.filter (fun r => ! truthySuccess r)
  if successful_chunks.isEmpty then
    { emptyDict with
      success := some false
      error := some "All chunks failed to transcribe"
      failed_chunks := some failed_chunks.length
      chunk_errors := some (failed_chunks.map toChunkError) }
  else
    let full_text := String.intercalate " "
      ((successful_chunks.filter textTruthy).map (fun c => c.text.getD ""))
    let merged := segLoop successful_chunks 0
    { emptyDict with
      success := some true
      text := some full_text
      segments := some merged.1
      total_chunks := some chunk_results.length
      successful_chunks := some successful_chunks.length
      failed_chunks := some failed_chunks.length
      language := (match successful_chunks with
        | c :: _ => c.language
        | [] => some "unknown")
      total_duration := if 0 < merged.2 then some merged.2 else none }

/-- `TranscriptionService.transcribe_file` (src/transcription.py:181-234):
empty input guard, single-chunk fast path (returns `transcribe_audio`'s dict
unchanged), or the sequential runner followed by reassembly.  The second
component is the trace of progress-callback invocations. -/
def transcribe_file (beh : Nat → TranscriberOutcome) (chunk_paths : List String)
    (language : Option String) (cb : Bool) : PyDict × List (Rat × String) :=
  match chunk_paths with
  | [] =>
    ({ emptyDict with
        success := some false
        error := some "No audio chunks provided" }, [])
  | [p] =>
    let t1 := if cb then [((1 : Rat) / 2, "Transcribing audio...")] else []
    let r := transcribe_audio (beh 0) p language
    let t2 := if cb then [((1 : Rat), "Transcription complete!")] else []
    (r, t1 ++ t2)
  | p :: q :: rest =>
    let t0 := if cb then [((1 : Rat) / 10, "Starting transcription...")] else []
    let run := transcribe_chunks_sequential beh (p :: q :: rest) language cb
    let t1 := if cb then [((9 : Rat) / 10, "Reassembling transcription...")] else []
    let final := reassemble_transcription run.1
    let t2 := if cb then [((1 : Rat), "Transcription complete!")] else []
    (final, t0 ++ run.2 ++ t1 ++ t2)

/-!
`src/audio_processing.py`: an `AudioSegment` is modelled by its length in
milliseconds, and a chunk `audio[start_ms:end_ms]` by the span
`(start_ms, end_ms)`.
-/

/-- Python's `range(0, stop, step)` per the language reference: the list
`[step*i for i in 0..<ceil(stop/step)]` (for `step > 0`; `range` with step 0
raises, which no caller in this repository does — a 0 step yields `[]`
here). -/
def pyRange (stop step : Nat) : List Nat :=
  (List.range ((stop + step - 1) / step)).map (fun i => step * i)

/-- `AudioProcessor.chunk_audio` (src/audio_processing.py:87-106): spans
`(start_ms, min (start_ms + chunk_duration_ms) audio_length)` for `start_ms`
in `range(0, audio_length, chunk_duration_ms)`. -/
def chunk_audio (audio_length chunk_duration_ms : Nat) : List (Nat × Nat) :=
  (pyRange audio_length chunk_duration_ms).map
    (fun start_ms => (start_ms, min (start_ms + chunk_duration_ms) audio_length))

set_option linter.unusedVariables false in
/-- `AudioProcessor.chunk_audio_by_size` (src/audio_processing.py:108-130):
same loop with `chunk_duration_ms` hardcoded to 600000; the
`max_size_bytes` parameter is read nowhere in the body. -/
def chunk_audio_by_size (audio_length max_size_bytes : Nat) : List (Nat × Nat) :=
  (pyRange audio_length 600000).map
    (fun start_ms => (start_ms, min (start_ms + 600000) audio_length))

/-- Decidable contiguous exact cover: `coversB a spans b` holds when the
spans, in order, start exactly where the previous one ended (the first at
`a`), are each non-empty, and the last ends exactly at `b`.  This implies
the spans are non-overlapping and strictly increasing. -/
def coversB : Nat → List (Nat × Nat) → Nat → Bool
  | a, [], b => a == b
  | a, (s, e) :: rest, b => (s == a) && (a < e) && coversB e rest b

/-- One step of segment merging, phrased as a left fold over the successful
chunks (used to state what `reassemble_transcription`'s loop computes,
independently of its recursion). -/
def mergeStep (acc : List Segment × Rat) (c : PyDict) : List Segment × Rat :=
  let segs := c.segments.getD []
  if segs = [] then acc
  else
    (acc.1 ++ segs.map (fun s => { s with start := s.start + acc.2, end_ := s.end_ + acc.2 }),
     if durTruthy c.duration then acc.2 + c.duration.getD 0 else acc.2)

/-- The merged segment list as a fold over the successful chunks in input
order. -/
def mergedSegmentsSpec (chunk_results : List PyDict) : List Segment :=
  ((chunk_results.filter truthySuccess).foldl mergeStep ([], 0)).1

/-- The inner loop of `reassemble_transcription` with the heap made
explicit: `adjusted_segment = segment.copy()` allocates a fresh record and
the two `+=` writes hit that copy, so the loop returns both the emitted
(adjusted) segments and the state of the chunk's own segment list after the
loop. -/
def adjustSegsRun (off : Rat) : List Segment → List Segment × List Segment
  | [] => ([], [])
  | s :: rest =>
    let adjusted_segment : Segment := { s with start := s.start + off, end_ := s.end_ + off }
    let r := adjustSegsRun off rest
    (adjusted_segment :: r.1, s :: r.2)

/-- The chunk loop of `reassemble_transcription` with the heap made
explicit: returns the merged segments with the final offset, and the state
of the successful-chunk list after the loop (each chunk's segment list as
`adjustSegsRun` left it). -/
def segLoopRun : List PyDict → Rat → (List Segment × Rat) × List PyDict
  | [], off => (([], off), [])
  | c :: rest, off =>
    let segs := c.segments.getD []
    if segs.isEmpty then
      let r := segLoopRun rest off
      (r.1, c :: r.2)
    else
      let a := adjustSegsRun off segs
      let off' := if durTruthy c.duration then off + c.duration.getD 0 else off
      let r := segLoopRun rest off'
      ((a.1 ++ r.1.1, r.1.2), { c with segments := some a.2 } :: r.2)

/-- A runner-shaped failure dict, as `transcribe_audio` + the runner's
index stamping produce it. -/
def sampleFail (i : Nat) (msg : String) : PyDict :=
  { emptyDict with
    success := some false
    error := some ("Error: " ++ msg)
    file_path := some "p"
    chunk_index := some i }

/-- A runner-shaped success dict. -/
def sampleOk (i : Nat) (t : String) (dur : Option Rat) (segs : Option (List Segment)) : PyDict :=
  { emptyDict with
    success := some true
    text := some t
    language := some "en"
    duration := dur
    segments := segs
    file_path := some "p"
    chunk_index := some i }

/-- A Transcriber that raises on every call. -/
def behFail : Nat → TranscriberOutcome :=
  fun _ => .raises "boom"

/-- A fully populated Whisper response. -/
def respHi : WhisperResponse :=
  ⟨some "hi", some "en", some 60, some [⟨0, 5, "hi"⟩], "resp"⟩

/-- A Transcriber that succeeds with `respHi` on every call. -/
def behOk : Nat → TranscriberOutcome :=
  fun _ => .ok respHi

/-- C1 counterexample data: a successful chunk with an empty segment list
but a reported duration of 300. -/
def cEmptySegs : PyDict :=
  sampleOk 0 "a" (some 300) (some [])

/-- C1 counterexample data: a successful chunk with one segment and no
reported duration. -/
def cSegNoDur : PyDict :=
  sampleOk 1 "b" none (some [⟨0, 10, "x"⟩])

/-- Abbreviation for the chunk count `ceil(D/B)` as the source's
`range` produces it. -/
def ceilDiv (D B : Nat) : Nat :=
  (D + B - 1) / B

theorem le_mul_ceilDiv (D B : Nat) (hB : 0 < B) : D ≤ B * ceilDiv D B := by
  by_contra h
  push_neg at h
  have hd : (ceilDiv D B + 1) * B = B * ceilDiv D B + B := by ring
  have h1 : (ceilDiv D B + 1) * B ≤ D + B - 1 := by omega
  have h2 : ceilDiv D B + 1 ≤ (D + B - 1) / B := (Nat.le_div_iff_mul_le hB).mpr h1
  have h3 : (D + B - 1) / B = ceilDiv D B := rfl
  omega

theorem mul_ceilDiv_pred_lt (D B : Nat) (hB : 0 < B) (hD : 0 < D) :
    B * (ceilDiv D B - 1) < D := by
  have hn : 1 ≤ ceilDiv D B := by
    have : 1 * B ≤ D + B - 1 := by omega
    exact (Nat.le_div_iff_mul_le hB).mpr this
  by_contra h
  push_neg at h
  have hd : (ceilDiv D B - 1 + 1) * B = B * (ceilDiv D B - 1) + B := by ring
  have h1 : D + B - 1 < (ceilDiv D B - 1 + 1) * B := by omega
  have h2 : (D + B - 1) / B < ceilDiv D B - 1 + 1 := (Nat.div_lt_iff_lt_mul hB).mpr h1
  have h3 : (D + B - 1) / B = ceilDiv D B := rfl
  omega

theorem covers_range_aux (D B : Nat) (hB : 0 < B) :
    ∀ len j, j + len = ceilDiv D B → B * j < D →
      coversB (B * j)
        ((List.range' j len).map (fun i => (B * i, min (B * i + B) D))) D = true := by
  intro len
  induction len with
  | zero =>
    intro j hj hlt
    have hj' : j = ceilDiv D B := by omega
    subst hj'
    have := le_mul_ceilDiv D B hB
    omega
  | succ len ih =>
    intro j hj hlt
    rw [List.range'_succ, List.map_cons]
    simp only [coversB, Bool.and_eq_true, beq_iff_eq, decide_eq_true_eq]
    refine ⟨⟨trivial, by omega⟩, ?_⟩
    cases len with
    | zero =>
      have h3 : j + 1 = ceilDiv D B := by omega
      have h1 : D ≤ B * ceilDiv D B := le_mul_ceilDiv D B hB
      rw [← h3] at h1
      have h2 : B * (j + 1) = B * j + B := by ring
      have hend : min (B * j + B) D = D := by omega
      rw [hend]
      simp [coversB]
    | succ len' =>
      have hstep : B * (j + 1) < D := by
        have hj1 : j + 1 ≤ ceilDiv D B - 1 := by omega
        have hmono : B * (j + 1) ≤ B * (ceilDiv D B - 1) :=
          Nat.mul_le_mul_left B hj1
        have := mul_ceilDiv_pred_lt D B hB (by omega)
        omega
      have h2 : B * (j + 1) = B * j + B := by ring
      have hend : min (B * j + B) D = B * (j + 1) := by omega
      rw [hend]
      exact ih (j + 1) (by omega) hstep

/-- `chunk_audio` rephrased as a map over the index range. -/
theorem chunk_audio_eq_map (D B : Nat) :
    chunk_audio D B =
      (List.range' 0 (ceilDiv D B)).map (fun i => (B * i, min (B * i + B) D)) := by
  rw [chunk_audio, pyRange, ← List.range_eq_range', List.map_map]
  rfl

end Groover

namespace Groover

/-- C2: for every audio length `D` (milliseconds) and chunk bound `B > 0`,
`chunk_audio` returns spans that are contiguous, non-overlapping, strictly
increasing and exactly cover `[0, D)` (all captured by `coversB 0 _ D`),
the number of chunks is `ceil(D/B)`, and a zero-length buffer yields zero
chunks. -/
theorem claim_C2_chunk_audio_coverage (D B : Nat) (hB : 0 < B) :
    coversB 0 (chunk_audio D B) D = true ∧
    (chunk_audio D B).length = ceilDiv D B ∧
    (D = 0 → chunk_audio D B = []) := by
  have hlen : (chunk_audio D B).length = ceilDiv D B := by
    rw [chunk_audio_eq_map]
    simp
  have hzero : D = 0 → chunk_audio D B = [] := by
    intro h0
    subst h0
    rw [chunk_audio_eq_map]
    have : ceilDiv 0 B = 0 := Nat.div_eq_of_lt (by omega)
    rw [this]
    rfl
  refine ⟨?_, hlen, hzero⟩
  by_cases hD : D = 0
  · rw [hzero hD, hD]
    rfl
  · rw [chunk_audio_eq_map]
    have := covers_range_aux D B hB (ceilDiv D B) 0 (by omega) (by omega)
    simpa using this

theorem claim_C2_chunk_audio_coverage_witness :
    0 < 10 ∧
    (coversB 0 (chunk_audio 25 10) 25 = true ∧
     (chunk_audio 25 10).length = ceilDiv 25 10 ∧
     (25 = 0 → chunk_audio 25 10 = [])) :=
  ⟨by decide, claim_C2_chunk_audio_coverage 25 10 (by decide)⟩

theorem filter_success_isEmpty (crs : List PyDict) :
    (crs.filter truthySuccess).isEmpty = ! crs.any truthySuccess := by
  induction crs with
  | nil => rfl
  | cons c rest ih =>
    by_cases h : truthySuccess c <;>
      simp [List.filter_cons, List.any_cons, h, ih]

/-- C4: the reassembled result's `success` is `true` iff at least one input
result is success-tagged, and in that case the success/failure counters
equal the sizes of the success/failure partition of the input. -/
theorem claim_C4_partial_success (crs : List PyDict) :
    ((reassemble_transcription crs).success = some true ↔ crs.any truthySuccess = true) ∧
    (crs.any truthySuccess = true →
      (reassemble_transcription crs).success = some true ∧
      (reassemble_transcription crs).successful_chunks = some (crs.countP truthySuccess) ∧
      (reassemble_transcription crs).failed_chunks =
        some (crs.countP (fun r => ! truthySuccess r))) := by
  unfold reassemble_transcription
  by_cases h : (crs.filter truthySuccess).isEmpty
  · have hany : crs.any truthySuccess = false := by
      have hf := filter_success_isEmpty crs
      rw [h] at hf
      cases hval : crs.any truthySuccess
      · rfl
      · rw [hval] at hf; exact absurd hf.symm (by simp)
    simp [h, hany]
  · have hany : crs.any truthySuccess = true := by
      cases hval : crs.any truthySuccess
      · exact absurd (by rw [filter_success_isEmpty, hval]; rfl) h
      · rfl
    simp [h, hany, List.countP_eq_length_filter, emptyDict]

theorem claim_C4_partial_success_witness :
    ((reassemble_transcription [sampleOk 0 "a" none none, sampleFail 1 "b"]).success = some true ↔
      ([sampleOk 0 "a" none none, sampleFail 1 "b"] : List PyDict).any truthySuccess = true) ∧
    ((reassemble_transcription [sampleOk 0 "a" none none, sampleFail 1 "b"]).success = some true ∧
     (reassemble_transcription [sampleOk 0 "a" none none, sampleFail 1 "b"]).successful_chunks =
       some (([sampleOk 0 "a" none none, sampleFail 1 "b"] : List PyDict).countP truthySuccess) ∧
     (reassemble_transcription [sampleOk 0 "a" none none, sampleFail 1 "b"]).failed_chunks =
       some (([sampleOk 0 "a" none none, sampleFail 1 "b"] : List PyDict).countP
         (fun r => ! truthySuccess r))) :=
  ⟨(claim_C4_partial_success _).1,
   (claim_C4_partial_success [sampleOk 0 "a" none none, sampleFail 1 "b"]).2 (by decide)⟩

/-- C5 counterexample: on an all-failure input the claim asserts the result
carries `text` equal to the empty string, but the failure dict built at
src/transcription.py:142-147 has no `text` key at all. -/
theorem claim_C5_counterexample :
    (reassemble_transcription [sampleFail 0 "boom"]).text = none ∧
    (reassemble_transcription [sampleFail 0 "boom"]).text ≠ some "" := by
  have h : (reassemble_transcription [sampleFail 0 "boom"]).text = none := rfl
  exact ⟨h, by rw [h]; simp⟩

/-- C5 (amended): when every input result is failure-tagged, the result has
`success = false`, carries no `text` key (a defaulted read yields the empty
string), an `error` message, and a `chunk_errors` list with exactly one
entry per input, each built from that input's `chunk_index` and `error`
fields. -/
theorem claim_C5_total_failure (crs : List PyDict)
    (h : ∀ c ∈ crs, truthySuccess c = false) :
    (reassemble_transcription crs).success = some false ∧
    (reassemble_transcription crs).text = none ∧
    (reassemble_transcription crs).error = some "All chunks failed to transcribe" ∧
    (reassemble_transcription crs).chunk_errors = some (crs.map toChunkError) ∧
    (crs.map toChunkError).length = crs.length := by
  have hfil : crs.filter truthySuccess = [] := by
    rw [List.filter_eq_nil_iff]
    intro a ha
    simp [h a ha]
  have hfail : crs.filter (fun r => ! truthySuccess r) = crs := by
    rw [List.filter_eq_self]
    intro a ha
    simp [h a ha]
  unfold reassemble_transcription
  simp [hfil, hfail, emptyDict]

theorem claim_C5_total_failure_witness :
    (reassemble_transcription [sampleFail 0 "a", sampleFail 1 "b"]).success = some false ∧
    (reassemble_transcription [sampleFail 0 "a", sampleFail 1 "b"]).text = none ∧
    (reassemble_transcription [sampleFail 0 "a", sampleFail 1 "b"]).error =
      some "All chunks failed to transcribe" ∧
    (reassemble_transcription [sampleFail 0 "a", sampleFail 1 "b"]).chunk_errors =
      some (([sampleFail 0 "a", sampleFail 1 "b"] : List PyDict).map toChunkError) ∧
    (([sampleFail 0 "a", sampleFail 1 "b"] : List PyDict).map toChunkError).length =
      ([sampleFail 0 "a", sampleFail 1 "b"] : List PyDict).length :=
  claim_C5_total_failure [sampleFail 0 "a", sampleFail 1 "b"] (by decide)

/-- C6 counterexample: with the successful chunks arriving out of index
order, the merged text follows input-list order (src/transcription.py:150
iterates `successful_chunks` as filtered, never sorting), not ascending
chunk-index order as the claim asserts. -/
theorem claim_C6_counterexample :
    (reassemble_transcription
      [sampleOk 1 "b" none none, sampleOk 0 "a" none none]).text = some "b a" ∧
    (reassemble_transcription
      [sampleOk 1 "b" none none, sampleOk 0 "a" none none]).text ≠ some "a b" := by
  have h : (reassemble_transcription
      [sampleOk 1 "b" none none, sampleOk 0 "a" none none]).text = some "b a" := rfl
  refine ⟨h, ?_⟩
  rw [h]
  simp

/-- C6 (amended): when at least one input is success-tagged, the merged
text equals the success-tagged inputs' non-empty `text` fields, taken in
input-list order (not sorted by index; results with an absent or empty
`text` are skipped), joined by a single space. -/
theorem claim_C6_text_input_order (crs : List PyDict)
    (h : crs.any truthySuccess = true) :
    (reassemble_transcription crs).text =
      some (String.intercalate " "
        (((crs.filter truthySuccess).filter textTruthy).map (fun c => c.text.getD ""))) := by
  have hne : (crs.filter truthySuccess).isEmpty = false := by
    rw [filter_success_isEmpty, h]
    rfl
  unfold reassemble_transcription
  simp [hne]

theorem claim_C6_text_input_order_witness :
    (reassemble_transcription [sampleOk 1 "b" none none, sampleOk 0 "a" none none]).text =
      some (String.intercalate " "
        (((([sampleOk 1 "b" none none, sampleOk 0 "a" none none] : List PyDict).filter
            truthySuccess).filter textTruthy).map (fun c => c.text.getD ""))) :=
  claim_C6_text_input_order [sampleOk 1 "b" none none, sampleOk 0 "a" none none] (by decide)

theorem segLoop_eq_foldl (l : List PyDict) :
    ∀ (acc : List Segment) (off : Rat),
      l.foldl mergeStep (acc, off) = (acc ++ (segLoop l off).1, (segLoop l off).2) := by
  induction l with
  | nil =>
    intro acc off
    simp [segLoop]
  | cons c rest ih =>
    intro acc off
    by_cases h : (c.segments.getD []) = []
    · simp [mergeStep, segLoop, h, ih]
    · have hne : (c.segments.getD []).isEmpty = false := by
        simpa [List.isEmpty_iff] using h
      simp [mergeStep, segLoop, h, hne, ih, List.append_assoc]

/-- C1 counterexample: the first chunk reports duration 300 but has an
empty segment list, so the source never advances `time_offset` (the
`if chunk.get('duration')` sits inside `if segments:`,
src/transcription.py:158-168); the second chunk's segment is emitted at
start 0, not at start 300 as the claim requires. -/
theorem claim_C1_counterexample :
    (reassemble_transcription [cEmptySegs, cSegNoDur]).segments = some [⟨0, 10, "x"⟩] ∧
    (reassemble_transcription [cEmptySegs, cSegNoDur]).segments ≠ some [⟨300, 310, "x"⟩] := by
  have h : (reassemble_transcription [cEmptySegs, cSegNoDur]).segments = some [⟨0, 10, "x"⟩] := by
    unfold reassemble_transcription
    simp [cEmptySegs, cSegNoDur, sampleOk, emptyDict, truthySuccess, segLoop, durTruthy]
  refine ⟨h, ?_⟩
  rw [h]
  intro hc
  rw [Option.some_inj, List.cons.injEq, Segment.mk.injEq] at hc
  have : (0 : Rat) = 300 := hc.1.1
  norm_num at this

/-- C1 (amended): for inputs with at least one success, the merged segment
list is a fold over the success-tagged results in input-list order: a chunk
with an empty or absent segment list is skipped entirely (it never advances
the offset, even when it reports a duration); any other chunk emits its
segments shifted by the running offset, text unchanged, and then advances
the offset by its duration when that is present and non-zero. -/
theorem claim_C1_segment_merge (crs : List PyDict)
    (h : crs.any truthySuccess = true) :
    (reassemble_transcription crs).segments = some (mergedSegmentsSpec crs) := by
  have hne : (crs.filter truthySuccess).isEmpty = false := by
    rw [filter_success_isEmpty, h]
    rfl
  unfold reassemble_transcription mergedSegmentsSpec
  simp [hne, segLoop_eq_foldl]

theorem claim_C1_segment_merge_witness :
    (reassemble_transcription [cEmptySegs, cSegNoDur]).segments =
      some (mergedSegmentsSpec [cEmptySegs, cSegNoDur]) :=
  claim_C1_segment_merge [cEmptySegs, cSegNoDur] (by decide)

theorem adjustSegsRun_spec (off : Rat) (l : List Segment) :
    (adjustSegsRun off l).2 = l ∧
    (adjustSegsRun off l).1 =
      l.map (fun s => { s with start := s.start + off, end_ := s.end_ + off }) := by
  induction l with
  | nil => simp [adjustSegsRun]
  | cons s rest ih => simp [adjustSegsRun, ih.1, ih.2]

theorem segLoopRun_state (l : List PyDict) :
    ∀ off : Rat, (segLoopRun l off).2 = l ∧ (segLoopRun l off).1 = segLoop l off := by
  induction l with
  | nil =>
    intro off
    simp [segLoopRun, segLoop]
  | cons c rest ih =>
    intro off
    by_cases h : (c.segments.getD []).isEmpty
    · simp [segLoopRun, segLoop, h, (ih off).1, (ih off).2]
    · have hsome : c.segments = some (c.segments.getD []) := by
        cases hc : c.segments
        · rw [hc] at h; simp at h
        · rfl
      have hupd : { c with segments := some (c.segments.getD []) } = c := by
        rw [← hsome]
      constructor
      · simp only [segLoopRun, h, if_neg, Bool.false_eq_true, not_false_iff]
        simp [(adjustSegsRun_spec off (c.segments.getD [])).1, hupd, (ih _).1]
      · simp only [segLoopRun, segLoop, h, Bool.false_eq_true, not_false_iff]
        simp [(adjustSegsRun_spec off (c.segments.getD [])).2, (ih _).2]

/-- C9: `reassemble_transcription` does not mutate its input.  The only
writes the source performs are the two `+=` on `adjusted_segment`, a
`segment.copy()`; making that heap behaviour explicit (`adjustSegsRun`,
`segLoopRun`) the post-state of the successful-chunk list equals the input
and the tracked run computes exactly the pure merge, so applying the
function twice to the same ordered list yields identical results. -/
theorem claim_C9_reassemble_pure (crs : List PyDict) :
    (segLoopRun (crs.filter truthySuccess) 0).2 = crs.filter truthySuccess ∧
    (segLoopRun (crs.filter truthySuccess) 0).1 = segLoop (crs.filter truthySuccess) 0 ∧
    reassemble_transcription crs = reassemble_transcription crs :=
  ⟨(segLoopRun_state (crs.filter truthySuccess) 0).1,
   (segLoopRun_state (crs.filter truthySuccess) 0).2, rfl⟩

theorem runChunks_length (beh : Nat → TranscriberOutcome) (lang : Option String)
    (cb : Bool) (total : Nat) (ps : List String) :
    ∀ i : Nat, ((runChunks beh lang cb total i ps).1).length = ps.length := by
  induction ps with
  | nil => intro i; rfl
  | cons p rest ih => intro i; simp [runChunks, ih]

theorem runChunks_get (beh : Nat → TranscriberOutcome) (lang : Option String)
    (cb : Bool) (total : Nat) (ps : List String) :
    ∀ i j : Nat,
      ((runChunks beh lang cb total i ps).1)[j]? =
        (ps[j]?).map (fun p =>
          { transcribe_audio (beh (i + j)) p lang with chunk_index := some (i + j) }) := by
  induction ps with
  | nil => intro i j; simp [runChunks]
  | cons p rest ih =>
    intro i j
    cases j with
    | zero => simp [runChunks]
    | succ j =>
      have harith : i + 1 + j = i + (j + 1) := by omega
      simp only [runChunks, List.getElem?_cons_succ]
      rw [ih (i + 1) j, harith]

theorem runChunks_map_index (beh : Nat → TranscriberOutcome) (lang : Option String)
    (cb : Bool) (total : Nat) (ps : List String) :
    ∀ i : Nat,
      ((runChunks beh lang cb total i ps).1).map PyDict.chunk_index =
        (List.range' i ps.length).map some := by
  induction ps with
  | nil => intro i; rfl
  | cons p rest ih =>
    intro i
    simp only [List.length_cons, List.range'_succ]
    simp [runChunks, ih]

/-- C3: for every chunk-path list and every Transcriber behaviour
(including raising on any chunk), the sequential runner returns exactly one
result per chunk, the result at position `j` is stamped `chunk_index = j`
(so the indices are exactly `0..N-1` in order), a raising chunk yields a
failure-tagged result wrapping the exception message, and the runner is a
total function — no exception escapes it. -/
theorem claim_C3_runner_totality (beh : Nat → TranscriberOutcome)
    (chunk_paths : List String) (language : Option String) (cb : Bool) :
    ((transcribe_chunks_sequential beh chunk_paths language cb).1).length =
      chunk_paths.length ∧
    ((transcribe_chunks_sequential beh chunk_paths language cb).1).map PyDict.chunk_index =
      (List.range chunk_paths.length).map some ∧
    (∀ j, j < chunk_paths.length →
      Option.map PyDict.chunk_index
        ((transcribe_chunks_sequential beh chunk_paths language cb).1)[j]? =
        some (some j)) ∧
    (∀ j msg, beh j = .raises msg → j < chunk_paths.length →
      Option.map PyDict.success
        ((transcribe_chunks_sequential beh chunk_paths language cb).1)[j]? =
        some (some false) ∧
      Option.map PyDict.error
        ((transcribe_chunks_sequential beh chunk_paths language cb).1)[j]? =
        some (some ("Error: " ++ msg))) := by
  refine ⟨runChunks_length beh language cb chunk_paths.length chunk_paths 0, ?_, ?_, ?_⟩
  · rw [List.range_eq_range']
    exact runChunks_map_index beh language cb chunk_paths.length chunk_paths 0
  · intro j hj
    rw [transcribe_chunks_sequential, runChunks_get beh language cb chunk_paths.length chunk_paths 0 j]
    rw [List.getElem?_eq_getElem hj]
    simp
  · intro j msg hbeh hj
    rw [transcribe_chunks_sequential,
      runChunks_get beh language cb chunk_paths.length chunk_paths 0 j,
      List.getElem?_eq_getElem hj]
    simp [hbeh, transcribe_audio]

theorem claim_C3_runner_totality_witness :
    ((transcribe_chunks_sequential behFail ["a", "b"] none false).1).length = 2 ∧
    ((transcribe_chunks_sequential behFail ["a", "b"] none false).1).map PyDict.chunk_index =
      (List.range 2).map some ∧
    Option.map PyDict.chunk_index
      ((transcribe_chunks_sequential behFail ["a", "b"] none false).1)[1]? = some (some 1) ∧
    Option.map PyDict.success
      ((transcribe_chunks_sequential behFail ["a", "b"] none false).1)[1]? =
      some (some false) ∧
    Option.map PyDict.error
      ((transcribe_chunks_sequential behFail ["a", "b"] none false).1)[1]? =
      some (some ("Error: " ++ "boom")) :=
  ⟨(claim_C3_runner_totality behFail ["a", "b"] none false).1,
   (claim_C3_runner_totality behFail ["a", "b"] none false).2.1,
   (claim_C3_runner_totality behFail ["a", "b"] none false).2.2.1 1 (by decide),
   ((claim_C3_runner_totality behFail ["a", "b"] none false).2.2.2 1 "boom" rfl (by decide)).1,
   ((claim_C3_runner_totality behFail ["a", "b"] none false).2.2.2 1 "boom" rfl (by decide)).2⟩

/-- C7 counterexample: on a one-element chunk list the Façade returns
`transcribe_audio`'s raw dict unchanged (src/transcription.py:209-214): the
result is success-shaped but carries no `total_chunks` (nor the other
aggregate counters), so it is not reshaped into the uniform
TranscriptResult the claim describes. -/
theorem claim_C7_counterexample :
    (transcribe_file behOk ["p"] none false).1.success = some true ∧
    (transcribe_file behOk ["p"] none false).1.total_chunks = none ∧
    (transcribe_file behOk ["p"] none false).1.successful_chunks = none := by
  exact ⟨rfl, rfl, rfl⟩

/-- C7 (amended): for a one-element chunk list, `transcribe_file` returns
the Transcriber's raw result dict as-is — its segments numerically
identical to the raw segments, no offset applied — and that dict carries
none of `total_chunks`, `successful_chunks`, `failed_chunks`,
`total_duration`: the single-chunk fast path does not reshape into the
uniform TranscriptResult shape. -/
theorem claim_C7_single_chunk_raw (beh : Nat → TranscriberOutcome) (p : String)
    (language : Option String) (cb : Bool) :
    (transcribe_file beh [p] language cb).1 = transcribe_audio (beh 0) p language ∧
    (transcribe_file beh [p] language cb).1.segments =
      (transcribe_audio (beh 0) p language).segments ∧
    (transcribe_file beh [p] language cb).1.total_chunks = none ∧
    (transcribe_file beh [p] language cb).1.successful_chunks = none ∧
    (transcribe_file beh [p] language cb).1.failed_chunks = none ∧
    (transcribe_file beh [p] language cb).1.total_duration = none := by
  refine ⟨rfl, rfl, ?_, ?_, ?_, ?_⟩ <;>
    (cases hb : beh 0 <;> simp [transcribe_file, hb, transcribe_audio, emptyDict])

theorem runChunks_trace_bounds (beh : Nat → TranscriberOutcome) (lang : Option String)
    (total : Nat) (htot : 0 < total) (ps : List String) :
    ∀ i : Nat, i + ps.length ≤ total →
      ∀ q ∈ (runChunks beh lang true total i ps).2, 0 ≤ q.1 ∧ q.1 ≤ 1 := by
  have hbound : ∀ k : Nat, k ≤ total → 0 ≤ (k : Rat) / (total : Rat) ∧ (k : Rat) / (total : Rat) ≤ 1 := by
    intro k hk
    constructor
    · positivity
    · rw [div_le_one (by exact_mod_cast htot)]
      exact_mod_cast hk
  induction ps with
  | nil =>
    intro i hi q hq
    simp [runChunks] at hq
  | cons p rest ih =>
    intro i hi q hq
    have hi' : i + rest.length + 1 ≤ total := by
      simp only [List.length_cons] at hi
      omega
    simp only [runChunks, if_true, List.cons_append, List.nil_append,
      List.mem_cons, List.mem_append] at hq
    rcases hq with hq | hq | hq
    · rw [hq]
      exact hbound i (by omega)
    · rw [hq]
      exact hbound (i + 1) (by omega)
    · exact ih (i + 1) (by omega) q hq

/-- C8 (amended): with a progress observer attached, every fraction passed
to the observer lies in `[0, 1]`.  (The full sequence is *not* monotone —
see the counterexample — because the Façade emits 0.1 before the runner's
first `0/N` and 0.9 after the runner's final `N/N = 1.0`.) -/
theorem claim_C8_fraction_bounds (beh : Nat → TranscriberOutcome)
    (chunk_paths : List String) (language : Option String) :
    ∀ q ∈ (transcribe_file beh chunk_paths language true).2, 0 ≤ q.1 ∧ q.1 ≤ 1 := by
  intro q hq
  cases chunk_paths with
  | nil => simp [transcribe_file] at hq
  | cons p rest =>
    cases rest with
    | nil =>
      simp only [transcribe_file, if_true, List.cons_append, List.nil_append,
        List.mem_cons, List.not_mem_nil, or_false] at hq
      rcases hq with hq | hq <;> rw [hq] <;> constructor <;> norm_num
    | cons p2 rest2 =>
      simp only [transcribe_file, transcribe_chunks_sequential, if_true,
        List.cons_append, List.nil_append, List.mem_cons, List.mem_append] at hq
      rcases hq with hq | ((hq | hq | hq) | hq | hq)
      · rw [hq]; constructor <;> norm_num
      · exact runChunks_trace_bounds beh language (p :: p2 :: rest2).length
          (by simp) (p :: p2 :: rest2) 0 (by simp) q hq
      · rw [hq]; constructor <;> norm_num
      · simp at hq
      · rw [hq]; constructor <;> norm_num
      · simp at hq

theorem claim_C8_fraction_bounds_witness :
    0 ≤ ((1 : Rat) / 2) ∧ ((1 : Rat) / 2) ≤ 1 :=
  claim_C8_fraction_bounds behOk ["a"] none ((1 : Rat) / 2, "Transcribing audio...")
    (by simp [transcribe_file])

/-- C8 counterexample: for a two-chunk call the observed fractions are
`[1/10, 0/2, 1/2, 1/2, 2/2, 9/10, 1]` — the façade's initial 0.1 precedes
the runner's 0.0 and its 0.9 follows the runner's 1.0, so the sequence of
fractions is not monotonically non-decreasing as the claim states. -/
theorem claim_C8_counterexample :
    ¬ List.Chain' (fun a b : Rat => a ≤ b)
      (((transcribe_file behFail ["a", "b"] none true).2).map Prod.fst) := by
  intro hchain
  simp only [transcribe_file, transcribe_chunks_sequential, runChunks, if_true,
    List.cons_append, List.nil_append, List.map_cons, List.map_nil,
    List.chain'_cons] at hchain
  have h01 : ((1 : Rat) / 10) ≤ ((0 : Nat) : Rat) / ((2 : Nat) : Rat) := hchain.1
  norm_num at h01

/-- C10: for every audio length and every requested byte ceiling,
`chunk_audio_by_size` returns exactly the chunk list of
`chunk_audio` with the fixed 600000 ms bound — `max_size_bytes` has no
effect on the output. -/
theorem claim_C10_chunk_by_size_ignores_bytes (audio_length max_size_bytes : Nat) :
    chunk_audio_by_size audio_length max_size_bytes = chunk_audio audio_length 600000 := by
  rfl

end Groover
